import Mathlib

/-!
Shallow embedding of the kkonfig configuration library (Go package
`kkonfig`, file with `processDefaultValues`, `processJson`,
`processEnvironmentValues`, `processField`, `Process`).

Go runtime values of configuration fields are embedded as `Value`,
field types (together with the method-set information that drives the
`Decoder` / `Setter` / `encoding.TextUnmarshaler` capability checks) as
`Ty`, and per-field struct-tag metadata as `FieldMeta`.  The environment
is a function `String → Option String` (the `lookupEnv` collaborator,
which distinguishes an absent key from a present-but-empty one), and a
configuration file is a `FileResult`: either a read failure, a JSON
parse failure, or a successfully parsed document, the latter modelled —
as the spec demands for the out-of-scope JSON collaborator — as a
black-box merge function on the struct's field values.

Kinds that no claim touches (floating point, `time.Duration` parsing)
are outside the embedded type universe; every other branch of the Go
code is translated directly.
-/

namespace Kkonfig

/-- Runtime value of a configuration field: Go strings, signed and
unsigned integers, booleans, slices, structs (a list of field values in
declaration order), pointers (`none` is the nil pointer) and an opaque
value for the kinds the coercion switch leaves untouched. -/
inductive Value where
  | vString : String → Value
  | vInt : Int → Value
  | vUint : Nat → Value
  | vBool : Bool → Value
  | vSlice : List Value → Value
  | vStruct : List Value → Value
  | vPtr : Option Value → Value
  | vOther : Value

/-- Capability record of a Go named type: whether it implements the
`Decoder`, `Setter` and `encoding.TextUnmarshaler` interfaces with a
value receiver (the method is in the method set of `T` itself) or only
with a pointer receiver (the method is only in the method set of `*T`),
and the behaviour of each method.  Each method takes the raw string and
the receiver's current value and either returns the receiver's new
value or an error; the behaviour is kept fully parametric since these
are caller-supplied types. -/
structure Caps where
  decodeOnValue : Bool
  decodeOnPtr : Bool
  setOnValue : Bool
  setOnPtr : Bool
  textOnValue : Bool
  textOnPtr : Bool
  decodeFn : String → Value → Except String Value
  setFn : String → Value → Except String Value
  textFn : String → Value → Except String Value

/-- Capability record of a type with none of the three interfaces. -/
def noCaps : Caps :=
  ⟨false, false, false, false, false, false,
   fun _ _ => .error "no Decode method",
   fun _ _ => .error "no Set method",
   fun _ _ => .error "no UnmarshalText method"⟩

/-- Struct-tag metadata of one struct field, as read through
`reflect.StructField`: the field name, the `Anonymous` (embedded) flag,
whether the field is settable (exported), and the raw results of
`Tag.Lookup("default")`, `Tag.Get("envconfig")` (empty string when the
tag is absent, exactly as in Go) and `Tag.Get("ignored")`. -/
structure FieldMeta where
  name : String
  anonymous : Bool
  canSet : Bool
  tagDefault : Option String
  tagEnvconfig : String
  tagIgnored : String

/-- Embedded Go type of a configuration field.  Integer widths carry
their bit size (8/16/32/64; plain `int`/`uint` are 64 on the targeted
platforms).  Every constructor except `tPtr` carries the capability
record of the (named) type; a Go pointer type `*T` has no methods of
its own — its method set is derived from `T`'s, see `satisfies`. -/
inductive Ty where
  | tString : Caps → Ty
  | tInt : Nat → Caps → Ty
  | tUint : Nat → Caps → Ty
  | tBool : Caps → Ty
  | tSlice : Ty → Caps → Ty
  | tStruct : List (FieldMeta × Ty) → Caps → Ty
  | tPtr : Ty → Ty
  | tOther : Caps → Ty

/-- Capability record attached to a type's own constructor (a pointer
type declares no methods of its own). -/
def ownCaps : Ty → Caps
  | .tString c => c
  | .tInt _ c => c
  | .tUint _ c => c
  | .tBool c => c
  | .tSlice _ c => c
  | .tStruct _ c => c
  | .tPtr _ => noCaps
  | .tOther c => c

/-- Whether `Ty` is a struct kind, as `reflect.Kind() == reflect.Struct`. -/
def isStructTy : Ty → Bool
  | .tStruct _ _ => true
  | _ => false

mutual
/-- Zero value of a type, as produced by `reflect.New(typ).Elem()`. -/
def zeroValue : Ty → Value
  | .tString _ => .vString ""
  | .tInt _ _ => .vInt 0
  | .tUint _ _ => .vUint 0
  | .tBool _ => .vBool false
  | .tSlice _ _ => .vSlice []
  | .tStruct fs _ => .vStruct (zeroFields fs)
  | .tPtr _ => .vPtr none
  | .tOther _ => .vOther

/-- Zero values of a struct's fields, in declaration order. -/
def zeroFields : List (FieldMeta × Ty) → List Value
  | [] => []
  | (_, t) :: fs => zeroValue t :: zeroFields fs
end

/-- Name of a type, as `reflect.Type.String()` renders it (model). -/
def tyName : Ty → String
  | .tString _ => "string"
  | .tInt bits _ => "int" ++ toString bits
  | .tUint bits _ => "uint" ++ toString bits
  | .tBool _ => "bool"
  | .tSlice e _ => "[]" ++ tyName e
  | .tStruct _ _ => "struct"
  | .tPtr inner => "*" ++ tyName inner
  | .tOther _ => "other"

/-- Go interface satisfaction for a `reflect.Value` of type `t`, as
performed by `interfaceFrom`: the capability is first looked for on the
value itself (value-receiver method set; for a pointer type `*T` this
method set already contains both value- and pointer-receiver methods of
`T`), then — when the value is addressable — on its address (which for
a non-pointer `T` adds `T`'s pointer-receiver methods, and for `*T`
adds nothing, since `**T` has no methods). -/
def satisfies (t : Ty) (canAddr : Bool) (onVal onPtr : Caps → Bool) : Bool :=
  match t with
  | .tPtr inner => onVal (ownCaps inner) || onPtr (ownCaps inner)
  | _ => onVal (ownCaps t) || (canAddr && onPtr (ownCaps t))

/-- Capability record whose method is invoked when a capability call is
delegated for a field of type `t` (for `*T`, the method comes from `T`). -/
def callCaps : Ty → Caps
  | .tPtr inner => ownCaps inner
  | t => ownCaps t

/-- Model of `decoderFrom`: the `Decode` method to delegate to, when
the field's type satisfies the `Decoder` interface. -/
def decoderFrom (t : Ty) (canAddr : Bool) :
    Option (String → Value → Except String Value) :=
  if satisfies t canAddr (fun c => c.decodeOnValue) (fun c => c.decodeOnPtr)
  then some (callCaps t).decodeFn else none

/-- Model of `setterFrom`: the `Set` method to delegate to, when the
field's type satisfies the `Setter` interface. -/
def setterFrom (t : Ty) (canAddr : Bool) :
    Option (String → Value → Except String Value) :=
  if satisfies t canAddr (fun c => c.setOnValue) (fun c => c.setOnPtr)
  then some (callCaps t).setFn else none

/-- Model of `textUnmarshaler`: the `UnmarshalText` method to delegate
to, when the field's type satisfies `encoding.TextUnmarshaler`. -/
def textUnmarshaler (t : Ty) (canAddr : Bool) :
    Option (String → Value → Except String Value) :=
  if satisfies t canAddr (fun c => c.textOnValue) (fun c => c.textOnPtr)
  then some (callCaps t).textFn else none

/-- Numeric value of one digit character (decimal or hex), if any. -/
def digitValue (c : Char) : Option Nat :=
  if '0' ≤ c ∧ c ≤ '9' then some (c.toNat - 48)
  else if 'a' ≤ c ∧ c ≤ 'f' then some (c.toNat - 97 + 10)
  else if 'A' ≤ c ∧ c ≤ 'F' then some (c.toNat - 65 + 10)
  else none

/-- Accumulate digits of the given base; any non-digit fails. -/
def parseDigitsAux (base : Nat) : List Char → Nat → Option Nat
  | [], acc => some acc
  | c :: cs, acc =>
    match digitValue c with
    | some d => if d < base then parseDigitsAux base cs (acc * base + d) else none
    | none => none

/-- Parse a non-empty run of digits of the given base. -/
def parseDigits (base : Nat) (cs : List Char) : Option Nat :=
  match cs with
  | [] => none
  | _ => parseDigitsAux base cs 0

/-- Base detection of `strconv` with base argument 0: a `0x`/`0X`
prefix selects 16, `0b`/`0B` selects 2, `0o`/`0O` selects 8, any other
leading zero selects octal, otherwise decimal. -/
def splitBasePrefix (cs : List Char) : Nat × List Char :=
  match cs with
  | '0' :: c :: rest =>
    if c = 'x' ∨ c = 'X' then (16, rest)
    else if c = 'b' ∨ c = 'B' then (2, rest)
    else if c = 'o' ∨ c = 'O' then (8, rest)
    else (8, c :: rest)
  | _ => (10, cs)

/-- Leading sign of a signed integer literal: `(negative, rest)`. -/
def splitSign (cs : List Char) : Bool × List Char :=
  match cs with
  | '+' :: rest => (false, rest)
  | '-' :: rest => (true, rest)
  | _ => (false, cs)

/-- Model of `strconv.ParseInt(s, 0, bits)`: optional sign, automatic
base detection, digits, and a signed range check for the declared bit
width (digit-group underscores are not modelled). -/
def parseIntGo (s : String) (bits : Nat) : Except String Int :=
  let (neg, cs) := splitSign s.toList
  let (base, ds) := splitBasePrefix cs
  match parseDigits base ds with
  | none => .error ("strconv.ParseInt: parsing \"" ++ s ++ "\": invalid syntax")
  | some n =>
    let v : Int := if neg then -(n : Int) else (n : Int)
    if -(2 ^ (bits - 1) : Int) ≤ v ∧ v < 2 ^ (bits - 1) then .ok v
    else .error ("strconv.ParseInt: parsing \"" ++ s ++ "\": value out of range")

/-- Model of `strconv.ParseUint(s, 0, bits)`: no sign permitted,
automatic base detection, digits, and an unsigned range check. -/
def parseUintGo (s : String) (bits : Nat) : Except String Nat :=
  let (base, ds) := splitBasePrefix s.toList
  match parseDigits base ds with
  | none => .error ("strconv.ParseUint: parsing \"" ++ s ++ "\": invalid syntax")
  | some n =>
    if n < 2 ^ bits then .ok n
    else .error ("strconv.ParseUint: parsing \"" ++ s ++ "\": value out of range")

/-- Split a character list on literal commas; the result always has
one more piece than there are commas (never empty). -/
def splitCommaChars : List Char → List (List Char)
  | [] => [[]]
  | c :: cs =>
    let r := splitCommaChars cs
    if c = ',' then [] :: r
    else
      match r with
      | [] => [[c]]
      | p :: ps => (c :: p) :: ps

/-- Model of `strings.Split(s, ",")`: split on every literal comma;
splitting the empty string yields a single empty element, as in Go. -/
def goSplitComma (s : String) : List String :=
  (splitCommaChars s.toList).map String.mk

/-- ASCII upper-casing of one character, as `strings.ToUpper` maps it
(configuration keys are ASCII; other characters stay unchanged). -/
def charUpperGo (c : Char) : Char :=
  if 'a' ≤ c ∧ c ≤ 'z' then Char.ofNat (c.toNat - 32) else c

/-- Model of `strings.ToUpper` for key derivation. -/
def goToUpper (s : String) : String :=
  String.mk (s.toList.map charUpperGo)

/-- Model of `strconv.ParseBool`: exactly the canonical literals. -/
def parseBoolGo (s : String) : Except String Bool :=
  if s = "1" ∨ s = "t" ∨ s = "T" ∨ s = "true" ∨ s = "TRUE" ∨ s = "True" then .ok true
  else if s = "0" ∨ s = "f" ∨ s = "F" ∨ s = "false" ∨ s = "FALSE" ∨ s = "False" then .ok false
  else .error ("strconv.ParseBool: parsing \"" ++ s ++ "\": invalid syntax")

/-- Pointee a pointer field is retargeted at after the single pointer
unwrap inside `processField`: the existing pointee when the pointer is
non-nil, else the freshly allocated zero value (`reflect.New`). -/
def derefPointee (inner : Ty) (v : Value) : Value :=
  match v with
  | .vPtr (some pv) => pv
  | _ => zeroValue inner

/-- The three capability checks at the top of `processField`, in the
Go priority order: `Decode`, then `Set`, then `UnmarshalText` (every
call site passes an addressable field, hence `canAddr = true`); `none`
when the field's type has no capability and the generic conversion has
to run. -/
def capDelegate (t : Ty) (value : String) (v : Value) :
    Option (Except String Value) :=
  match decoderFrom t true with
  | some fn => some (fn value v)
  | none =>
    match setterFrom t true with
    | some fn => some (fn value v)
    | none =>
      match textUnmarshaler t true with
      | some fn => some (fn value v)
      | none => none

/-- Sequence the element conversions of a slice; the first failing
element fails the whole conversion. -/
def convertElemsWith (f : String → Except String Value) :
    List String → Except String (List Value)
  | [] => .ok []
  | s :: rest => do
    let nv ← f s
    let rest2 ← convertElemsWith f rest
    .ok (nv :: rest2)

mutual
/-- Model of `processField(value, field)`: delegate to `Decode`, `Set`
or `UnmarshalText` in that priority order when the field's type has the
capability (`capDelegate`); otherwise peel one pointer layer
(allocating a zero pointee when the pointer is nil) and dispatch on
the concrete kind — strings are assigned verbatim, integers / unsigned
integers / booleans are parsed with the `strconv` models above, a
slice splits the input on literal commas and converts each element
recursively from the element type's zero value (`reflect.MakeSlice`
zero-initialises), and any other kind (structs, nested pointers) has
no case in the Go switch and is a silent no-op.  The Go code writes
this as one `switch` after the capability checks; here the switch is
distributed over the constructors of `Ty` (see
`processField_eq_capsThenSwitch` below for the literal control flow).
Returns the field's new value, or the conversion error. -/
def processField (value : String) : Ty → Value → Except String Value
  | .tString c, v =>
    match capDelegate (.tString c) value v with
    | some r => r
    | none => .ok (.vString value)
  | .tInt bits c, v =>
    match capDelegate (.tInt bits c) value v with
    | some r => r
    | none => (parseIntGo value bits).map Value.vInt
  | .tUint bits c, v =>
    match capDelegate (.tUint bits c) value v with
    | some r => r
    | none => (parseUintGo value bits).map Value.vUint
  | .tBool c, v =>
    match capDelegate (.tBool c) value v with
    | some r => r
    | none => (parseBoolGo value).map Value.vBool
  | .tSlice elem c, v =>
    match capDelegate (.tSlice elem c) value v with
    | some r => r
    | none =>
      (convertElemsWith (fun s => processField s elem (zeroValue elem))
        (goSplitComma value)).map Value.vSlice
  | .tStruct fs c, v =>
    match capDelegate (.tStruct fs c) value v with
    | some r => r
    | none => .ok v
  | .tPtr inner, v =>
    match capDelegate (.tPtr inner) value v with
    | some r => r
    | none =>
      (kindSwitch value inner (derefPointee inner v)).map
        (fun nv => Value.vPtr (some nv))
  | .tOther c, v =>
    match capDelegate (.tOther c) value v with
    | some r => r
    | none => .ok v

/-- The kind switch at the end of `processField`, run — after the one
pointer unwrap — on the pointee of a pointer field.  Structs, pointers
and other kinds have no case in the Go switch and are a silent no-op. -/
def kindSwitch (value : String) : Ty → Value → Except String Value
  | .tString _, _ => .ok (.vString value)
  | .tInt bits _, _ => (parseIntGo value bits).map Value.vInt
  | .tUint bits _, _ => (parseUintGo value bits).map Value.vUint
  | .tBool _, _ => (parseBoolGo value).map Value.vBool
  | .tSlice elem _, _ =>
    (convertElemsWith (fun s => processField s elem (zeroValue elem))
      (goSplitComma value)).map Value.vSlice
  | _, v => .ok v
end

/-- Environment collaborator (`lookupEnv`): an optional string per key,
distinguishing an absent key from a present-but-empty one. -/
def EnvMap : Type := String → Option String

/-- Structured conversion error (`ParseError` in the source): the
environment key (left empty by the default pass, which does not set
it), the field name, the declared type name, the offending raw value
and the underlying conversion error. -/
structure ParseError where
  keyName : String
  fieldName : String
  typeName : String
  value : String
  err : String
deriving DecidableEq

/-- Default handling at the end of the `processDefaultValues` loop
body: when the field carries a `default` tag, its string is run through
`processField`; a conversion failure is wrapped into a `ParseError`
carrying the field name, type name and raw value (no key name). -/
def defaultLeaf (m : FieldMeta) (t : Ty) (v : Value) : Except ParseError Value :=
  match m.tagDefault with
  | some d =>
    match processField d t v with
    | .ok nv => .ok nv
    | .error e => .error ⟨"", m.name, tyName t, d, e⟩
  | none => .ok v

mutual
/-- Model of `processDefaultValues`: walk the struct's fields in
order; skip unsettable or `ignored="true"` fields; resolve pointer
chains; recurse into struct fields unconditionally (then `continue`,
so a `default` tag on a struct field is never applied); on everything
else apply the `default` tag, if present, through `processField`. -/
def processDefaultValues :
    List (FieldMeta × Ty) → List Value → Except ParseError (List Value)
  | [], vs => .ok vs
  | _ :: _, [] => .ok []
  | (m, t) :: fs, v :: vs => do
    let nv ←
      if m.canSet = false ∨ m.tagIgnored = "true" then pure v
      else processDefaultField m t v
    let nvs ← processDefaultValues fs vs
    pure (nv :: nvs)

/-- Loop body of `processDefaultValues` for one settable, non-ignored
field, with the pointer-resolution `for` loop unrolled into recursion:
a non-nil pointer dereferences (the converted pointee is written back
through the pointer); a nil pointer to a struct is allocated at zero
and dereferenced; a nil pointer to a non-struct stops the resolution
(the `break`) and the field — still the nil pointer — falls through to
the default handling; a resolved struct is recursed into regardless of
its capabilities; anything else falls through to the default handling. -/
def processDefaultField (m : FieldMeta) : Ty → Value → Except ParseError Value
  | .tPtr inner, .vPtr (some pv) =>
    (processDefaultField m inner pv).map (fun nv => Value.vPtr (some nv))
  | .tPtr inner, .vPtr none =>
    if isStructTy inner then
      (processDefaultField m inner (zeroValue inner)).map
        (fun nv => Value.vPtr (some nv))
    else defaultLeaf m (.tPtr inner) (.vPtr none)
  | .tStruct fs _, .vStruct vs => (processDefaultValues fs vs).map Value.vStruct
  | t, v => defaultLeaf m t v
end

/-- One configuration-file path's outcome, as the `processJson` loop
sees it: the read may fail, the JSON unmarshal may fail, or the parsed
document merges into the specification.  The merge itself is the
out-of-scope JSON collaborator, modelled as a black-box mutation of
the struct's field values. -/
inductive FileResult where
  | readFailure
  | unmarshalFailure
  | parsed (merge : List Value → List Value)

/-- Whether the path was read and unmarshalled successfully. -/
def FileResult.isParsed : FileResult → Bool
  | .parsed _ => true
  | _ => false

/-- Fold of the successfully parsed documents' merges over the field
values, in path order; failed paths contribute nothing. -/
def jsonApply : List FileResult → List Value → List Value
  | [], vs => vs
  | .parsed merge :: rest, vs => jsonApply rest (merge vs)
  | _ :: rest, vs => jsonApply rest vs

/-- Model of `processJson(configPaths, spec)`: when the path list is
non-nil, each path is read and unmarshalled in order, any failure is
skipped and the next path tried, and the function always returns nil. -/
def processJson (configPaths : Option (List FileResult)) (vs : List Value) :
    Except ParseError (List Value) :=
  match configPaths with
  | none => .ok vs
  | some paths => .ok (jsonApply paths vs)

/-- Field name used for the environment key: the `envconfig` tag
overrides the declared field name when non-empty. -/
def envFieldName (m : FieldMeta) : String :=
  if m.tagEnvconfig ≠ "" then m.tagEnvconfig else m.name

/-- Environment key of a field: the override-or-name, prepended with
`pfx_` when the prefix is non-empty, then upper-cased. -/
def envKey (pfx : String) (m : FieldMeta) : String :=
  goToUpper (if pfx ≠ "" then pfx ++ "_" ++ envFieldName m else envFieldName m)

/-- Whether the type exposes any of the three capabilities — the check
the Environment pass performs on a struct-typed field before deciding
to recurse (`decoderFrom(f) == nil && setterFrom(f) == nil &&
textUnmarshaler(f) == nil` means recurse). -/
def hasAnyCap (t : Ty) : Bool :=
  (decoderFrom t true).isSome || (setterFrom t true).isSome ||
    (textUnmarshaler t true).isSome

/-- Key lookup and conversion at the end of the
`processEnvironmentValues` loop body: when the key is present in the
environment — even bound to the empty string — the value is run
through `processField`; a conversion failure is wrapped into a
`ParseError` carrying the key, field name, type name and raw value. -/
def envLeaf (env : EnvMap) (pfx : String) (m : FieldMeta) (t : Ty) (v : Value) :
    Except ParseError Value :=
  match env (envKey pfx m) with
  | some value =>
    match processField value t v with
    | .ok nv => .ok nv
    | .error e => .error ⟨envKey pfx m, envFieldName m, tyName t, value, e⟩
  | none => .ok v

mutual
/-- Model of `processEnvironmentValues`: walk the struct's fields in
order; skip unsettable or `ignored="true"` fields; resolve pointer
chains as the default pass does; recurse into a struct field — with
the child prefix equal to the current prefix for an anonymous field
and to the field's computed key otherwise — unless the struct's type
exposes a capability, in which case the field is a leaf; on leaves,
look the field's key up in the environment and convert when present. -/
def processEnvironmentValues (env : EnvMap) (pfx : String) :
    List (FieldMeta × Ty) → List Value → Except ParseError (List Value)
  | [], vs => .ok vs
  | _ :: _, [] => .ok []
  | (m, t) :: fs, v :: vs => do
    let nv ←
      if m.canSet = false ∨ m.tagIgnored = "true" then pure v
      else processEnvField env pfx m t v
    let nvs ← processEnvironmentValues env pfx fs vs
    pure (nv :: nvs)

/-- Loop body of `processEnvironmentValues` for one settable,
non-ignored field; pointer resolution as in the default pass. -/
def processEnvField (env : EnvMap) (pfx : String) (m : FieldMeta) :
    Ty → Value → Except ParseError Value
  | .tPtr inner, .vPtr (some pv) =>
    (processEnvField env pfx m inner pv).map (fun nv => Value.vPtr (some nv))
  | .tPtr inner, .vPtr none =>
    if isStructTy inner then
      (processEnvField env pfx m inner (zeroValue inner)).map
        (fun nv => Value.vPtr (some nv))
    else envLeaf env pfx m (.tPtr inner) (.vPtr none)
  | .tStruct fs c, .vStruct vs =>
    if hasAnyCap (.tStruct fs c) then
      envLeaf env pfx m (.tStruct fs c) (.vStruct vs)
    else
      (processEnvironmentValues env (if m.anonymous then pfx else envKey pfx m)
        fs vs).map Value.vStruct
  | t, v => envLeaf env pfx m t v
end

/-- Error surfaced by `Process`: the invalid-specification sentinel
(`ErrInvalidSpecification`) or a wrapped conversion `ParseError`. -/
inductive ProcessError where
  | invalidSpecification
  | parse (e : ParseError)
deriving DecidableEq

/-- The `interface` argument handed to `Process`, as `reflect.ValueOf`
classifies it: a nil interface, a value of non-pointer kind, a typed
nil pointer, or a non-nil pointer to a value of the pointee type. -/
inductive Arg where
  | nilInterface
  | nonPtr (t : Ty) (v : Value)
  | nilPtr (pointee : Ty)
  | ptrTo (pointee : Ty) (v : Value)

/-- Model of `Process(prefix, configPaths, spec)`: the sanity check —
`spec` must be a pointer whose element is a struct; a nil interface, a
non-pointer value, a typed nil pointer (whose `Elem` is the invalid
`reflect.Value`) and a pointer to a non-struct all return
`ErrInvalidSpecification` before any pass runs — then the default
pass, the file-merge pass and the environment pass in order, stopping
at the first error.  Returns the final struct value. -/
def Process (pfx : String) (configPaths : Option (List FileResult))
    (env : EnvMap) (spec : Arg) : Except ProcessError Value :=
  match spec with
  | .ptrTo (.tStruct fs _) (.vStruct vs) => do
    let vs1 ← (processDefaultValues fs vs).mapError ProcessError.parse
    let vs2 ← (processJson configPaths vs1).mapError ProcessError.parse
    let vs3 ←
      ((processEnvironmentValues env pfx fs vs2).mapError ProcessError.parse :
        Except ProcessError (List Value))
    pure (Value.vStruct vs3)
  | _ => .error .invalidSpecification

/-- Field metadata of an exported, non-anonymous field with the given
name and optional `default` tag, no `envconfig` override, not ignored. -/
def plainField (n : String) (d : Option String) : FieldMeta :=
  ⟨n, false, true, d, "", ""⟩

/-- Capability record with the given receiver flags for `Decode`,
`Set` and `UnmarshalText`, whose three methods succeed with
distinguishable sentinel strings recording which method ran. -/
def capsAll (dv dp sv sp tv tp : Bool) : Caps :=
  ⟨dv, dp, sv, sp, tv, tp,
   fun s _ => .ok (.vString ("Decode:" ++ s)),
   fun s _ => .ok (.vString ("Set:" ++ s)),
   fun s _ => .ok (.vString ("UnmarshalText:" ++ s))⟩

/-- A struct type carrying a value-receiver `Decode` capability, whose
single field `A` declares `default:"5"`. -/
def innerCapsTy : Ty :=
  .tStruct [(plainField "A" (some "5"), .tInt 64 noCaps)]
    (capsAll true false false false false false)

/-- Environment binding both the key of a field named `Inner` and the
key its nested field `A` would get if the pass recursed. -/
def envC8 : EnvMap := fun k =>
  if k = "INNER" then some "z" else if k = "INNER_A" then some "7" else none

/-- Sanity: `processField` is exactly the Go control flow — the three
capability checks, then one pointer unwrap, then the kind switch. -/
theorem processField_eq_capsThenSwitch (value : String) (t : Ty) (v : Value) :
    processField value t v =
      match capDelegate t value v with
      | some r => r
      | none =>
        match t with
        | .tPtr inner =>
          (kindSwitch value inner (derefPointee inner v)).map
            (fun nv => Value.vPtr (some nv))
        | t => kindSwitch value t v := by
  cases t <;> rfl

/-- Paths whose read or unmarshal failed contribute nothing to the
merged result: folding over all paths equals folding over the
successfully parsed ones. -/
theorem jsonApply_filter (ps : List FileResult) (vs : List Value) :
    jsonApply ps vs = jsonApply (ps.filter (fun p => p.isParsed)) vs := by
  induction ps generalizing vs with
  | nil => rfl
  | cons p rest ih =>
    cases p with
    | readFailure => simpa [jsonApply, FileResult.isParsed] using ih vs
    | unmarshalFailure => simpa [jsonApply, FileResult.isParsed] using ih vs
    | parsed merge =>
      simpa [jsonApply, FileResult.isParsed] using ih (merge vs)

/-- C1 counterexample: an exported `int64` field `A` tagged
`default:"7"`, pre-set by the caller to `3`, with no configuration
file and an empty environment, does NOT keep the caller's value after
`Process`: the default pass assigns `7` over it.  This falsifies the
claim that the default is assigned only when the field has no
pre-existing explicit value. -/
theorem C1_counterexample :
    Process "" none (fun _ => none)
        (.ptrTo (.tStruct [(plainField "A" (some "7"), .tInt 64 noCaps)] noCaps)
          (.vStruct [.vInt 3])) = .ok (.vStruct [.vInt 7]) ∧
    Process "" none (fun _ => none)
        (.ptrTo (.tStruct [(plainField "A" (some "7"), .tInt 64 noCaps)] noCaps)
          (.vStruct [.vInt 3])) ≠ .ok (.vStruct [.vInt 3]) := by
  refine ⟨rfl, fun hcontra => ?_⟩
  rw [show Process "" none (fun _ => none)
        (.ptrTo (.tStruct [(plainField "A" (some "7"), .tInt 64 noCaps)] noCaps)
          (.vStruct [.vInt 3])) = .ok (.vStruct [.vInt 7]) from rfl] at hcontra
  simp at hcontra

/-- C1 (amended): the Default-Value Pass converts and assigns the
default string whenever the field carries a `default` tag, regardless
of any pre-existing explicit value — with no JSON or environment
source, a caller-set field value `k` is overwritten by the converted
default (`7` here), for every `k`. -/
theorem C1_default_overwrites_preset (k : Int) :
    Process "" none (fun _ => none)
        (.ptrTo (.tStruct [(plainField "A" (some "7"), .tInt 64 noCaps)] noCaps)
          (.vStruct [.vInt k])) = .ok (.vStruct [.vInt 7]) := rfl

/-- C2: a string field `Port` with a `default` tag `d`, a supplied
JSON file whose merge sets the field to `j`, and environment variable
`APP_PORT` bound to `e` (prefix `app`): after `Process` returns
successfully the field holds the environment value `e` — the passes
run defaults, then files, then environment, and the environment pass
assigns whenever the key is present — for all values `d`, `j`, `e`
(in particular all-different ones). -/
theorem C2_env_wins_over_file_and_default (d j e : String) :
    Process "app" (some [.parsed (fun _ => [.vString j])])
        (fun k => if k = "APP_PORT" then some e else none)
        (.ptrTo (.tStruct [(plainField "Port" (some d), .tString noCaps)] noCaps)
          (.vStruct [.vString ""])) = .ok (.vStruct [.vString e]) := rfl

/-- C3: environment-key derivation.  A field `Port` with prefix `app`
is looked up as `APP_PORT`; the same field inside a non-anonymous
struct field `Server` as `APP_SERVER_PORT`; and inside an anonymous
(embedded) `Server` as `APP_PORT` with no extra segment — witnessed by
the bound value `v` landing in the field in each of the three layouts. -/
theorem C3_env_key_derivation (v : String) :
    (Process "app" none (fun k => if k = "APP_PORT" then some v else none)
        (.ptrTo (.tStruct [(plainField "Port" none, .tString noCaps)] noCaps)
          (.vStruct [.vString ""])) = .ok (.vStruct [.vString v])) ∧
    (Process "app" none (fun k => if k = "APP_SERVER_PORT" then some v else none)
        (.ptrTo (.tStruct [(⟨"Server", false, true, none, "", ""⟩,
            .tStruct [(plainField "Port" none, .tString noCaps)] noCaps)] noCaps)
          (.vStruct [.vStruct [.vString ""]])) =
        .ok (.vStruct [.vStruct [.vString v]])) ∧
    (Process "app" none (fun k => if k = "APP_PORT" then some v else none)
        (.ptrTo (.tStruct [(⟨"Server", true, true, none, "", ""⟩,
            .tStruct [(plainField "Port" none, .tString noCaps)] noCaps)] noCaps)
          (.vStruct [.vStruct [.vString ""]])) =
        .ok (.vStruct [.vStruct [.vString v]])) :=
  ⟨rfl, rfl, rfl⟩

/-- C4: configuration files can never fail `Process` — `processJson`
always returns success; failing paths are skipped so `Process` behaves
exactly as if only the successfully parsed paths had been supplied;
and with only failing paths the environment pass still runs (here it
still assigns `e` to the field). -/
theorem C4_file_errors_never_fail_Process :
    (∀ (cp : Option (List FileResult)) (vs : List Value),
      ∃ r, processJson cp vs = .ok r) ∧
    (∀ (pfx : String) (env : EnvMap) (spec : Arg) (ps : List FileResult),
      Process pfx (some ps) env spec =
        Process pfx (some (ps.filter (fun p => p.isParsed))) env spec) ∧
    (∀ e : String,
      Process "" (some [.readFailure, .unmarshalFailure])
        (fun k => if k = "A" then some e else none)
        (.ptrTo (.tStruct [(plainField "A" none, .tString noCaps)] noCaps)
          (.vStruct [.vString ""])) = .ok (.vStruct [.vString e])) := by
  refine ⟨fun cp vs => ?_, fun pfx env spec ps => ?_, fun e => rfl⟩
  · cases cp with
    | none => exact ⟨vs, rfl⟩
    | some ps => exact ⟨jsonApply ps vs, rfl⟩
  · cases spec with
    | nilInterface => rfl
    | nonPtr t v => rfl
    | nilPtr t => rfl
    | ptrTo t v =>
      cases t with
      | tStruct fs c =>
        cases v with
        | vStruct vs =>
          have hj : ∀ vs1 : List Value, processJson (some ps) vs1 =
              processJson (some (ps.filter (fun p => p.isParsed))) vs1 :=
            fun vs1 => by
              show Except.ok (jsonApply ps vs1) =
                Except.ok (jsonApply (ps.filter (fun p => p.isParsed)) vs1)
              rw [jsonApply_filter]
          simp only [Process, hj]
        | vString s => rfl
        | vInt n => rfl
        | vUint n => rfl
        | vBool b => rfl
        | vSlice l => rfl
        | vPtr o => rfl
        | vOther => rfl
      | tString c => rfl
      | tInt bits c => rfl
      | tUint bits c => rfl
      | tBool c => rfl
      | tSlice elem c => rfl
      | tPtr inner => rfl
      | tOther c => rfl

/-- C5: whenever the specification argument is not a non-nil pointer
to a structure — a nil interface, a non-pointer value, a typed nil
pointer, or a pointer to a non-struct — `Process` returns the
invalid-specification error immediately, for every prefix, path list
and environment, with no pass ever running and hence no field of the
argument read or written (the result is the same constant error for
every field value). -/
theorem C5_invalid_specification (pfx : String)
    (cp : Option (List FileResult)) (env : EnvMap) (spec : Arg)
    (h : ∀ fs c vs, spec ≠ .ptrTo (.tStruct fs c) (.vStruct vs)) :
    Process pfx cp env spec = .error .invalidSpecification := by
  cases spec with
  | nilInterface => rfl
  | nonPtr t v => rfl
  | nilPtr t => rfl
  | ptrTo t v =>
    cases t with
    | tStruct fs c =>
      cases v with
      | vStruct vs => exact absurd rfl (h fs c vs)
      | vString s => rfl
      | vInt n => rfl
      | vUint n => rfl
      | vBool b => rfl
      | vSlice l => rfl
      | vPtr o => rfl
      | vOther => rfl
    | tString c => rfl
    | tInt bits c => rfl
    | tUint bits c => rfl
    | tBool c => rfl
    | tSlice elem c => rfl
    | tPtr inner => rfl
    | tOther c => rfl

/-- Witness for C5 at a concrete invalid argument: an `int64` value
passed directly (not a pointer). -/
theorem C5_invalid_specification_witness :
    Process "p" none (fun _ => none) (.nonPtr (.tInt 64 noCaps) (.vInt 5)) =
      .error .invalidSpecification :=
  C5_invalid_specification "p" none (fun _ => none)
    (.nonPtr (.tInt 64 noCaps) (.vInt 5))
    (fun _ _ _ h => Arg.noConfusion h)

/-- C6: converting a string into a sequence-typed field splits on
literal commas and converts each piece recursively: `"a,b,c"` on a
sequence-of-string field yields `["a","b","c"]`, and `"1,2,x"` on a
sequence-of-`int64` field fails with the conversion error arising
from element `"x"` — for any current field value. -/
theorem C6_slice_conversion (v w : Value) :
    processField "a,b,c" (.tSlice (.tString noCaps) noCaps) v =
      .ok (.vSlice [.vString "a", .vString "b", .vString "c"]) ∧
    processField "1,2,x" (.tSlice (.tInt 64 noCaps) noCaps) w =
      .error "strconv.ParseInt: parsing \"x\": invalid syntax" :=
  ⟨rfl, rfl⟩

/-- C7: the coercion engine checks the three capabilities in the fixed
priority order `Decode`, `Set`, `UnmarshalText` and delegates to the
first one the field's type exposes; each is found on the field's value
or — second — on its address (a pointer-receiver-only method is still
found on an addressable field, but not on a non-addressable one); the
generic conversion runs only when none of the three applies.  The
first conjunct is the full dispatch law; the rest observe each
priority case and the address fallback on sentinel capabilities. -/
theorem C7_capability_priority :
    (∀ (t : Ty) (value : String) (v : Value),
      processField value t v =
        match decoderFrom t true with
        | some fn => fn value v
        | none =>
          match setterFrom t true with
          | some fn => fn value v
          | none =>
            match textUnmarshaler t true with
            | some fn => fn value v
            | none =>
              match t with
              | .tPtr inner =>
                (kindSwitch value inner (derefPointee inner v)).map
                  (fun nv => Value.vPtr (some nv))
              | t2 => kindSwitch value t2 v) ∧
    (∀ (s : String) (v : Value),
      processField s (.tOther (capsAll true false true true true true)) v =
        .ok (.vString ("Decode:" ++ s))) ∧
    (∀ (s : String) (v : Value),
      processField s (.tOther (capsAll false false true false true true)) v =
        .ok (.vString ("Set:" ++ s))) ∧
    (∀ (s : String) (v : Value),
      processField s (.tOther (capsAll false false false false true false)) v =
        .ok (.vString ("UnmarshalText:" ++ s))) ∧
    (∀ (s : String) (v : Value),
      processField s (.tOther (capsAll false true false false false false)) v =
        .ok (.vString ("Decode:" ++ s))) ∧
    (decoderFrom (.tOther (capsAll false true false false false false)) false =
      none) ∧
    (∀ (s : String) (v : Value),
      processField s (.tString noCaps) v = kindSwitch s (.tString noCaps) v) := by
  refine ⟨fun t value v => ?_, fun s v => rfl, fun s v => rfl, fun s v => rfl,
    fun s v => rfl, rfl, fun s v => rfl⟩
  rw [processField_eq_capsThenSwitch]
  unfold capDelegate
  cases decoderFrom t true with
  | some fn => rfl
  | none =>
    cases setterFrom t true with
    | some fn => rfl
    | none =>
      cases textUnmarshaler t true with
      | some fn => rfl
      | none => rfl

/-- C8: for a struct-typed field, the Default pass always recurses —
for every capability record `c`, even one exposing `Decode`/`Set`/
`UnmarshalText` — while the Environment pass recurses only when the
struct exposes none of the three capabilities and otherwise treats the
field as a leaf subject to key lookup and conversion.  The last two
conjuncts observe the asymmetry on a decodable struct `Inner` with a
field `A` tagged `default:"5"`: the default pass recurses and applies
the inner default (never invoking `Decode`), while the environment
pass delegates `INNER`'s value to `Decode` and ignores the `INNER_A`
binding its recursion would have consumed. -/
theorem C8_struct_recursion_asymmetry :
    (∀ (m : FieldMeta) (fs : List (FieldMeta × Ty)) (c : Caps) (vs : List Value),
      processDefaultField m (.tStruct fs c) (.vStruct vs) =
        (processDefaultValues fs vs).map Value.vStruct) ∧
    (∀ (env : EnvMap) (pfx : String) (m : FieldMeta)
        (fs : List (FieldMeta × Ty)) (c : Caps) (vs : List Value),
      hasAnyCap (.tStruct fs c) = true →
        processEnvField env pfx m (.tStruct fs c) (.vStruct vs) =
          envLeaf env pfx m (.tStruct fs c) (.vStruct vs)) ∧
    (∀ (env : EnvMap) (pfx : String) (m : FieldMeta)
        (fs : List (FieldMeta × Ty)) (c : Caps) (vs : List Value),
      hasAnyCap (.tStruct fs c) = false →
        processEnvField env pfx m (.tStruct fs c) (.vStruct vs) =
          (processEnvironmentValues env
            (if m.anonymous then pfx else envKey pfx m) fs vs).map
            Value.vStruct) ∧
    (processDefaultValues [(plainField "Inner" none, innerCapsTy)]
        [.vStruct [.vInt 0]] = .ok [.vStruct [.vInt 5]]) ∧
    (processEnvironmentValues envC8 "" [(plainField "Inner" none, innerCapsTy)]
        [.vStruct [.vInt 0]] = .ok [.vString "Decode:z"]) := by
  refine ⟨fun m fs c vs => rfl, fun env pfx m fs c vs h => ?_,
    fun env pfx m fs c vs h => ?_, rfl, rfl⟩
  · unfold processEnvField
    rw [h]
    rfl
  · unfold processEnvField
    rw [h]
    rfl

/-- Witness for C8 at concrete inputs: the environment pass treats the
decodable struct `innerCapsTy` as a leaf, and recurses into a
capability-free empty struct. -/
theorem C8_struct_recursion_asymmetry_witness :
    processEnvField (fun _ => none) "" (plainField "Inner" none)
        (.tStruct [(plainField "A" (some "5"), .tInt 64 noCaps)]
          (capsAll true false false false false false))
        (.vStruct [.vInt 0]) =
      envLeaf (fun _ => none) "" (plainField "Inner" none)
        (.tStruct [(plainField "A" (some "5"), .tInt 64 noCaps)]
          (capsAll true false false false false false))
        (.vStruct [.vInt 0]) ∧
    processEnvField (fun _ => none) "" (plainField "S" none)
        (.tStruct [] noCaps) (.vStruct []) =
      (processEnvironmentValues (fun _ => none)
        (if (plainField "S" none).anonymous then ""
         else envKey "" (plainField "S" none)) [] []).map Value.vStruct :=
  ⟨C8_struct_recursion_asymmetry.2.1 (fun _ => none) "" (plainField "Inner" none)
      [(plainField "A" (some "5"), .tInt 64 noCaps)]
      (capsAll true false false false false false) [.vInt 0] rfl,
   C8_struct_recursion_asymmetry.2.2.1 (fun _ => none) "" (plainField "S" none)
      [] noCaps [] rfl⟩

/-- C9: a field tagged `ignored="true"` is read and written by neither
pass: with a `default` tag present and every environment key bound
(and no JSON source), both passes and the whole `Process` return the
field's initial value unchanged — for every field type `t` and every
initial value `v` (in particular the zero value). -/
theorem C9_ignored_field_untouched (t : Ty) (v : Value) (d es pfx : String)
    (env : EnvMap) :
    processDefaultValues [(⟨"A", false, true, some d, "", "true"⟩, t)] [v] =
      .ok [v] ∧
    processEnvironmentValues env pfx
        [(⟨"A", false, true, some d, "", "true"⟩, t)] [v] = .ok [v] ∧
    Process pfx none (fun _ => some es)
        (.ptrTo (.tStruct [(⟨"A", false, true, some d, "", "true"⟩, t)] noCaps)
          (.vStruct [v])) = .ok (.vStruct [v]) :=
  ⟨rfl, rfl, rfl⟩

/-- C10: a sequence-of-string field whose environment key is present
with the empty string ends up as the one-element sequence containing
the empty string — not the empty sequence — because splitting `""` on
commas yields a single empty piece; for every initial field value. -/
theorem C10_empty_env_value_slice (v0 : Value) :
    Process "" none (fun k => if k = "A" then some "" else none)
        (.ptrTo (.tStruct [(plainField "A" none,
            .tSlice (.tString noCaps) noCaps)] noCaps)
          (.vStruct [v0])) = .ok (.vStruct [.vSlice [.vString ""]]) ∧
    Value.vSlice [.vString ""] ≠ .vSlice [] :=
  ⟨rfl, by simp⟩

end Kkonfig
